import Mathlib

/-!
Shallow embedding of `anagram/anagram.py` (repository `brianpendleton/anagram`)
and proofs about its spec.

Modelling conventions:
* Python strings are `String` (a list of characters); `len` is `String.length`.
* `sorted(word)` on a string sorts its characters ascending by codepoint.  On a
  linear order the sorted arrangement of a list is unique, so any correct sort
  denotes the same function; we use `List.insertionSort (· ≤ ·)`.
* A value that may be `None` is an `Option`; `sort_word` additionally accepts
  arbitrary non-string values, modelled by `PyVal`.
* `load_words_file` and `find_anagrams` are Python generator functions: calling
  them creates a generator without executing any of the body, and the body only
  runs when the generator is resumed.  Each is therefore modelled twice: as a
  pure list transformer (the sequence a full consumption produces) and as a
  step function on an explicit generator state, where the `start` state holds
  the still-unexamined arguments.
* The filesystem seen by `load_words_file` is a map from paths to the list of
  lines that iterating the opened file yields (`none` when the file cannot be
  opened); the repository code's own contribution is `rstrip` on each line,
  which is modelled character by character.
-/

namespace Anagram

/-- Error kinds raised by the Python functions in `anagram.py`:
`ValueError` in `find_anagrams`, `TypeError` in `sort_word`, and the
`IOError`/`FileNotFoundError` of `open`. -/
inductive PyError where
  | valueError
  | typeError
  | ioError
deriving DecidableEq, Repr

/-- A Python value as `sort_word` may receive it: `None`, a string, or a
non-string value such as the integer `1234` used in its doctest. -/
inductive PyVal where
  | vnone
  | vstr (s : String)
  | vint (n : Int)
deriving DecidableEq, Repr

/-- The expression `''.join(sorted(word))` from the last line of `sort_word`:
the characters of the string sorted ascending by codepoint, joined back into a
string. -/
def sort_word_str (s : String) : String :=
  ⟨s.data.insertionSort (· ≤ ·)⟩

/-- The function `sort_word` of `anagram.py`: `None` is returned unchanged, a
non-string raises `TypeError`, and a string is sorted by
`''.join(sorted(word))`. -/
def sort_word : PyVal → Except PyError PyVal
  | .vnone => .ok .vnone
  | .vstr s => .ok (.vstr (sort_word_str s))
  | .vint _ => .error .typeError

/-- The function `get_permutations` of `anagram.py`:
`set(''.join(p) for p in permutations(word))`, with `None` propagated.
`itertools.permutations` enumerates every ordering of the word's characters
(which `List.permutations` also does) and `set(...)` collapses duplicates
(modelled by `List.toFinset`). -/
def get_permutations : Option String → Option (Finset String)
  | none => none
  | some w => some (w.data.permutations.map (fun l => String.mk l)).toFinset

/-- Characters Python's `str.rstrip()` strips (the ASCII whitespace class of
`str.isspace`). -/
def isPySpace (c : Char) : Bool :=
  c = ' ' || c = '\t' || c = '\n' || c = '\r' || c = '\x0b' || c = '\x0c'

/-- Python's `line.rstrip()`: remove the longest all-whitespace suffix. -/
def rstrip (s : String) : String :=
  ⟨(s.data.reverse.dropWhile isPySpace).reverse⟩

/-- The sequence a full consumption of the `load_words_file` generator produces
over an opened file, the file being represented by the list of lines its
iterator yields: each line is rstripped and yielded in order. -/
def load_words_file (lines : List String) : List String :=
  lines.map rstrip

/-- State of a `load_words_file` generator: `start` holds the arguments before
the body has run (so before `open`), `reading` holds the lines still to be
yielded of a successfully opened file. -/
inductive LoadState where
  | start (fs : String → Option (List String)) (filepath : String)
  | reading (remaining : List String)

/-- Outcome of resuming a `load_words_file` generator once. -/
inductive LoadStep where
  | yielded (val : String) (rest : LoadState)
  | done
  | raised (e : PyError)

/-- Calling the generator function `load_words_file(filepath)`: in Python this
creates a generator object without executing any of the body, so the call
itself never raises.  `fs` is the filesystem the later `open` will consult. -/
def load_words_file_call (fs : String → Option (List String)) (filepath : String) :
    Except PyError LoadState :=
  .ok (.start fs filepath)

/-- Resuming a `load_words_file` generator once.  On the first resumption the
body runs from the top, so `open(filepath)` happens here: a missing file raises
the IO error now.  Otherwise the next line is rstripped and yielded. -/
def load_words_file_next : LoadState → LoadStep
  | .start fs filepath =>
    match fs filepath with
    | none => .raised .ioError
    | some [] => .done
    | some (l :: rest) => .yielded (rstrip l) (.reading rest)
  | .reading [] => .done
  | .reading (l :: rest) => .yielded (rstrip l) (.reading rest)

/-- The sequence a full consumption of the `find_anagrams` generator produces
for non-`None` arguments.  `sorted_base = sort_word(word)` is compared against
each candidate that survives the filter
`(w for w in valid_words if w and len(w) == len(word))`; a surviving candidate
is yielded (unmodified) when its sorted characters equal `sorted_base`.
Truthiness of a string (`if w`) is `len(w) != 0`, and a `None` candidate is
falsy, so the filter keeps exactly the non-`None`, non-empty candidates of the
target's length. -/
def find_anagrams (word : String) (valid_words : List (Option String)) : List String :=
  (valid_words.filterMap fun w? =>
    match w? with
    | none => none
    | some w => if w.length ≠ 0 ∧ w.length = word.length then some w else none).filter
    fun w => decide (sort_word_str w = sort_word_str word)

/-- State of a `find_anagrams` generator: `start` holds the arguments before
the body has run (so before the `None` check), `looping` holds the computed
`sorted_base`, the target's length, and the candidates still to be examined. -/
inductive AnagramState where
  | start (word : Option String) (valid_words : Option (List (Option String)))
  | looping (sorted_base : String) (wordLen : Nat) (remaining : List (Option String))
deriving DecidableEq

/-- Outcome of resuming a `find_anagrams` generator once. -/
inductive AnagramStep where
  | yielded (val : String) (rest : AnagramState)
  | done
  | raised (e : PyError)
deriving DecidableEq

/-- The loop of `find_anagrams`, run until the next yield: skip candidates that
are `None`, empty, of the wrong length, or whose sorted characters differ from
`sorted_base`; yield the first surviving candidate unmodified. -/
def anagram_loop_next (sorted_base : String) (wordLen : Nat) :
    List (Option String) → AnagramStep
  | [] => .done
  | w? :: rest =>
    match w? with
    | none => anagram_loop_next sorted_base wordLen rest
    | some w =>
      if w.length ≠ 0 ∧ w.length = wordLen then
        if sort_word_str w = sorted_base then
          .yielded w (.looping sorted_base wordLen rest)
        else anagram_loop_next sorted_base wordLen rest
      else anagram_loop_next sorted_base wordLen rest

/-- Calling the generator function `find_anagrams(word, valid_words)`: in
Python this creates a generator object without executing any of the body — in
particular without running the `None` check — so the call itself never
raises. -/
def find_anagrams_call (word : Option String)
    (valid_words : Option (List (Option String))) :
    Except PyError AnagramState :=
  .ok (.start word valid_words)

/-- Resuming a `find_anagrams` generator once.  On the first resumption the
body runs from the top: `if word is None or valid_words is None: raise
ValueError(...)` executes now, then `sorted_base` is computed and the loop
runs to its first yield. -/
def find_anagrams_next : AnagramState → AnagramStep
  | .start none _ => .raised .valueError
  | .start (some _) none => .raised .valueError
  | .start (some w) (some vs) => anagram_loop_next (sort_word_str w) w.length vs
  | .looping sb len rem => anagram_loop_next sb len rem

/-- What claim C1 literally asks `find_anagrams` to yield, stated from the
claim's words for comparison: the candidates that are non-`None`, of the
target's length, and whose sorted characters equal the target's — with no
non-emptiness requirement. -/
def find_anagrams_claimed (word : String) (valid_words : List (Option String)) :
    List String :=
  (valid_words.filterMap id).filter fun c =>
    decide (c.length = word.length ∧ sort_word_str c = sort_word_str word)

/-- C3: for every string `w`, `sort_word(w)` succeeds and returns a string with
the same multiset of characters as `w`, arranged in ascending codepoint order,
and in particular of the same length as `w`. -/
theorem sort_word_perm_sorted (w : String) :
    sort_word (.vstr w) = .ok (.vstr (sort_word_str w)) ∧
    List.Perm (sort_word_str w).data w.data ∧
    (sort_word_str w).data.Sorted (· ≤ ·) ∧
    (sort_word_str w).length = w.length := by
  refine ⟨rfl, List.perm_insertionSort _ _, List.sorted_insertionSort _ _, ?_⟩
  show (w.data.insertionSort (· ≤ ·)).length = w.data.length
  exact (List.perm_insertionSort _ _).length_eq

/-- C8: `sort_word` is idempotent on strings: sorting an already canonical form
returns it unchanged. -/
theorem sort_word_idempotent (w : String) :
    (sort_word (.vstr w)).bind sort_word = sort_word (.vstr w) := by
  show Except.ok (PyVal.vstr (sort_word_str (sort_word_str w))) =
    Except.ok (PyVal.vstr (sort_word_str w))
  have h : (sort_word_str w).data.Sorted (· ≤ ·) := List.sorted_insertionSort _ _
  have h2 : sort_word_str (sort_word_str w) = sort_word_str w := by
    show String.mk ((sort_word_str w).data.insertionSort (· ≤ ·)) = sort_word_str w
    rw [h.insertionSort_eq]
  rw [h2]

/-- C6: `sort_word(None)` returns `None`, and a non-null non-string input such
as the integer `1234` raises `TypeError`. -/
theorem sort_word_none_and_nonstring :
    sort_word .vnone = .ok .vnone ∧
    sort_word (.vint 1234) = .error .typeError ∧
    ∀ n : Int, sort_word (.vint n) = .error .typeError :=
  ⟨rfl, rfl, fun _ => rfl⟩

/-- C7: `get_permutations(w)` is the set of all distinct orderings of `w`'s
characters (a string is a member iff its characters are a permutation of
`w`'s, so duplicates are collapsed), it contains the canonical ordering
`sort_word(w)`, and `get_permutations(None)` returns `None`. -/
theorem get_permutations_spec :
    (∀ w : String, ∃ ps : Finset String,
      get_permutations (some w) = some ps ∧
      (∀ s : String, s ∈ ps ↔ List.Perm s.data w.data) ∧
      sort_word_str w ∈ ps) ∧
    get_permutations none = none := by
  refine ⟨fun w => ⟨_, rfl, fun s => ?_, ?_⟩, rfl⟩
  · rw [List.mem_toFinset, List.mem_map]
    constructor
    · rintro ⟨l, hl, rfl⟩
      exact List.mem_permutations.mp hl
    · intro h
      exact ⟨s.data, List.mem_permutations.mpr h, rfl⟩
  · rw [List.mem_toFinset, List.mem_map]
    exact ⟨(sort_word_str w).data,
      List.mem_permutations.mpr (List.perm_insertionSort _ _), rfl⟩

/-- C10: for every string `w`, `get_permutations(w)` contains `w` itself (the
identity rearrangement is always a member). -/
theorem get_permutations_contains_self (w : String) :
    ∃ ps : Finset String, get_permutations (some w) = some ps ∧ w ∈ ps := by
  refine ⟨_, rfl, ?_⟩
  rw [List.mem_toFinset, List.mem_map]
  exact ⟨w.data, List.mem_permutations.mpr (List.Perm.refl _), rfl⟩

/-- A string is empty iff its length is zero (Python's truthiness of a string
is exactly `len(w) != 0`). -/
theorem string_eq_empty_iff (c : String) : c = "" ↔ c.length = 0 := by
  constructor
  · rintro rfl; rfl
  · intro h
    cases c with
    | mk data =>
      cases data with
      | nil => rfl
      | cons a l => exact absurd h (by simp [String.length])

/-- C9: `find_anagrams` filters candidates to non-empty entries: the empty
string is never yielded, and `find_anagrams('', [''])` yields the empty
sequence even though the empty candidate has the target's length and an equal
canonical form. -/
theorem find_anagrams_excludes_empty :
    (∀ (word : String) (valid_words : List (Option String)),
      "" ∉ find_anagrams word valid_words) ∧
    find_anagrams "" [some ""] = [] := by
  constructor
  · intro word vs h
    rw [find_anagrams, List.mem_filter, List.mem_filterMap] at h
    obtain ⟨⟨w?, _, hw⟩, _⟩ := h
    cases w? with
    | none => exact Option.noConfusion hw
    | some c =>
      have hw2 : (if c.length ≠ 0 ∧ c.length = word.length then some c else none) =
          some "" := hw
      by_cases hc : c.length ≠ 0 ∧ c.length = word.length
      · rw [if_pos hc] at hw2
        injection hw2 with hw3
        subst hw3
        exact hc.1 rfl
      · rw [if_neg hc] at hw2
        exact Option.noConfusion hw2
  · rfl

/-- C1 counterexample: with target `''` and candidate list `['']`, the code
yields `[]`, while the claim's condition (non-null, same length, equal sorted
characters — with no non-emptiness requirement) selects `['']`. -/
theorem find_anagrams_claim_counterexample :
    find_anagrams "" [some ""] = [] ∧
    find_anagrams_claimed "" [some ""] = [""] :=
  ⟨rfl, rfl⟩

/-- C1 (amended): for every non-null target and candidate list,
`find_anagrams` yields exactly the candidates that are non-null, non-empty, of
the target's length, and whose sorted characters equal the target's sorted
characters; it yields the original candidate, preserving order and duplicates
(the two sides are equal as lists).  In particular
`find_anagrams('time', ['emit','time','mite','car',None])` yields exactly
`['emit','time','mite']` in that order. -/
theorem find_anagrams_yields_matching :
    (∀ (word : String) (valid_words : List (Option String)),
      find_anagrams word valid_words = (valid_words.filterMap id).filter fun c =>
        decide (c ≠ "" ∧ c.length = word.length ∧
          sort_word_str c = sort_word_str word)) ∧
    find_anagrams "time" [some "emit", some "time", some "mite", some "car", none] =
      ["emit", "time", "mite"] := by
  constructor
  · intro word vs
    rw [find_anagrams, List.filter_filterMap, List.filter_filterMap]
    apply congrArg (fun f => List.filterMap f vs)
    funext w?
    cases w? with
    | none => rfl
    | some c =>
      by_cases h2 : c.length = word.length
      · by_cases h1 : c.length = 0
        · have hw0 : ¬(c.length ≠ 0 ∧ c.length = word.length) := fun h => h.1 h1
          have hce : c = "" := (string_eq_empty_iff c).mpr h1
          simp [Option.filter, hw0, hce]
        · have hpos : c.length ≠ 0 ∧ c.length = word.length := ⟨h1, h2⟩
          have hne : ¬ c = "" := fun h => h1 ((string_eq_empty_iff c).mp h)
          have hw : ¬ word.length = 0 := h2 ▸ h1
          by_cases h3 : sort_word_str c = sort_word_str word <;>
            simp [Option.filter, hpos, hne, hw, h2, h3]
      · have hneg : ¬(c.length ≠ 0 ∧ c.length = word.length) := fun h => h2 h.2
        simp [Option.filter, hneg, h2]
  · rfl

/-- C2 counterexample: calling `find_anagrams(None, ['a'])` raises nothing at
call time — the call returns a generator in its start state — and the
`ValueError` only appears on the first resumption, so the error is lazy, not
eager. -/
theorem find_anagrams_eager_counterexample :
    find_anagrams_call none (some [some "a"]) =
      .ok (.start none (some [some "a"])) ∧
    find_anagrams_next (.start none (some [some "a"])) = .raised .valueError :=
  ⟨rfl, rfl⟩

/-- C2 (amended): whenever the target word or the candidate sequence is null,
calling `find_anagrams` succeeds (returning a generator, with no error at call
time), and the first resumption of that generator raises `ValueError` before
any value is yielded. -/
theorem find_anagrams_null_raises_lazily (word : Option String)
    (valid_words : Option (List (Option String)))
    (h : word = none ∨ valid_words = none) :
    find_anagrams_call word valid_words = .ok (.start word valid_words) ∧
    find_anagrams_next (.start word valid_words) = .raised .valueError := by
  refine ⟨rfl, ?_⟩
  rcases h with rfl | rfl
  · rfl
  · cases word with
    | none => rfl
    | some w => rfl

/-- Witness for the amended C2 theorem at a concrete input. -/
theorem find_anagrams_null_raises_lazily_witness :
    find_anagrams_call none (some [some "emit"]) =
      .ok (.start none (some [some "emit"])) ∧
    find_anagrams_next (.start none (some [some "emit"])) = .raised .valueError :=
  find_anagrams_null_raises_lazily none (some [some "emit"]) (Or.inl rfl)

/-- C4: `load_words_file` yields one entry per line of the source, in source
order and preserving duplicates (entry `i` of the output is the rstripped line
`i` of the source); each entry is a literal prefix of its line — the line minus
an all-whitespace suffix — and ends in a non-whitespace character when
non-empty, so leading whitespace and interior content are untouched; an empty
source yields an empty sequence. -/
theorem load_words_file_spec :
    load_words_file [] = [] ∧
    (∀ lines : List String, (load_words_file lines).length = lines.length) ∧
    (∀ (lines : List String) (i : Nat),
      (load_words_file lines)[i]? = lines[i]?.map rstrip) ∧
    (∀ s : String, ∃ ws : List Char,
      s.data = (rstrip s).data ++ ws ∧
      ws.all isPySpace = true ∧
      ((rstrip s).data.getLast?.all fun c => !isPySpace c) = true) := by
  refine ⟨rfl, fun lines => List.length_map lines rstrip,
    fun lines i => List.getElem?_map rstrip lines i, fun s => ?_⟩
  refine ⟨(s.data.reverse.takeWhile isPySpace).reverse, ?_, ?_, ?_⟩
  · show s.data = (s.data.reverse.dropWhile isPySpace).reverse ++
      (s.data.reverse.takeWhile isPySpace).reverse
    rw [← List.reverse_append, List.takeWhile_append_dropWhile, List.reverse_reverse]
  · rw [List.all_eq_true]
    intro c hc
    rw [List.mem_reverse] at hc
    exact List.mem_takeWhile_imp hc
  · show ((s.data.reverse.dropWhile isPySpace).reverse.getLast?.all
      fun c => !isPySpace c) = true
    rw [List.getLast?_reverse]
    have h := List.head?_dropWhile_not isPySpace s.data.reverse
    cases hh : (s.data.reverse.dropWhile isPySpace).head? with
    | none => rfl
    | some c =>
      rw [hh] at h
      simp [Option.all, h]

/-- C5: for a source that cannot be opened, calling `load_words_file` succeeds
(it returns a generator, with no error at call time), and the IO error is
raised at the first consumption attempt of the returned sequence. -/
theorem load_words_file_missing_lazy (fs : String → Option (List String))
    (filepath : String) (h : fs filepath = none) :
    load_words_file_call fs filepath = .ok (.start fs filepath) ∧
    load_words_file_next (.start fs filepath) = .raised .ioError := by
  refine ⟨rfl, ?_⟩
  show (match fs filepath with
    | none => LoadStep.raised PyError.ioError
    | some [] => LoadStep.done
    | some (l :: rest) => LoadStep.yielded (rstrip l) (LoadState.reading rest)) =
    LoadStep.raised PyError.ioError
  rw [h]

/-- Witness for the C5 theorem at a concrete input: a filesystem with no
readable files and the path `words.txt`. -/
theorem load_words_file_missing_lazy_witness :
    load_words_file_call (fun _ => none) "words.txt" =
      .ok (.start (fun _ => none) "words.txt") ∧
    load_words_file_next (.start (fun _ => none) "words.txt") =
      .raised .ioError :=
  load_words_file_missing_lazy (fun _ => none) "words.txt" rfl

/-- The loop of `find_anagrams`, run to exhaustion (every yield collected, in
order).  Used to check that the generator-state model and the list model of
`find_anagrams` describe the same loop. -/
def anagram_loop_run (sorted_base : String) (wordLen : Nat) :
    List (Option String) → List String
  | [] => []
  | none :: rest => anagram_loop_run sorted_base wordLen rest
  | some w :: rest =>
    if w.length ≠ 0 ∧ w.length = wordLen then
      if sort_word_str w = sorted_base then
        w :: anagram_loop_run sorted_base wordLen rest
      else anagram_loop_run sorted_base wordLen rest
    else anagram_loop_run sorted_base wordLen rest

/-- The two embeddings of the `find_anagrams` body agree: running its loop to
exhaustion produces exactly the list `find_anagrams` returns. -/
theorem anagram_loop_run_eq_find_anagrams (word : String)
    (vs : List (Option String)) :
    anagram_loop_run (sort_word_str word) word.length vs = find_anagrams word vs := by
  induction vs with
  | nil => rfl
  | cons w? rest ih =>
    cases w? with
    | none => simpa [anagram_loop_run, find_anagrams, List.filterMap_cons] using ih
    | some c =>
      by_cases h1 : c.length ≠ 0 ∧ c.length = word.length
      · have hw : ¬ word.length = 0 := h1.2 ▸ h1.1
        by_cases h3 : sort_word_str c = sort_word_str word <;>
          simp_all [anagram_loop_run, find_anagrams, List.filterMap_cons, hw, h3]
      · simp_all [anagram_loop_run, find_anagrams, List.filterMap_cons, h1]

end Anagram
